import Mathlib

/-!
Verification of the `xid` identifier type (src/xid.rs): the 12-byte
identifier, its field packing (`from_parts`) and accessors, and the
base-32 bit-packing codec (`encode`/`decode`).

Machine integers are embedded as `Nat`; `u8` arithmetic that can wrap
(`<<` on `u8`, `as u8` casts) carries an explicit `% 256`.
-/

/-- The 32-symbol alphabet table (src/xid.rs lines 19-24): the bytes of
the ASCII string "0123456789abcdefghijklmnopqrstuv". -/
def ENCODING : List Nat :=
  [48, 49, 50, 51, 52, 53, 54, 55, 56, 57,
   97, 98, 99, 100, 101, 102, 103, 104, 105, 106, 107, 108, 109, 110,
   111, 112, 113, 114, 115, 116, 117, 118]

/-- The 256-entry inverse table (src/xid.rs lines 26-35): every entry starts
as the sentinel 0xFF, then each alphabet byte's slot is set to its index. -/
def DECODING : List Nat :=
  (List.range 32).foldl (fun buf i => buf.set (ENCODING.getD i 0) i)
    (List.replicate 256 255)

/-- The 12-byte identifier (src/xid.rs lines 10-13), one field per byte of
`bytes: [u8; 12]`. -/
structure Xid where
  b0 : Nat
  b1 : Nat
  b2 : Nat
  b3 : Nat
  b4 : Nat
  b5 : Nat
  b6 : Nat
  b7 : Nat
  b8 : Nat
  b9 : Nat
  b10 : Nat
  b11 : Nat
  deriving DecidableEq

attribute [ext] Xid

/-- All twelve bytes are in range for `u8`. -/
def Xid.Valid (x : Xid) : Prop :=
  x.b0 < 256 ∧ x.b1 < 256 ∧ x.b2 < 256 ∧ x.b3 < 256 ∧
  x.b4 < 256 ∧ x.b5 < 256 ∧ x.b6 < 256 ∧ x.b7 < 256 ∧
  x.b8 < 256 ∧ x.b9 < 256 ∧ x.b10 < 256 ∧ x.b11 < 256

instance (x : Xid) : Decidable x.Valid := by
  unfold Xid.Valid; infer_instance

/-- The 12 bytes as a list, in order: Rust's derived `Ord` on `[u8; 12]`
is lexicographic over this list. -/
def Xid.bytesList (x : Xid) : List Nat :=
  [x.b0, x.b1, x.b2, x.b3, x.b4, x.b5, x.b6, x.b7, x.b8, x.b9, x.b10, x.b11]

/-- `Xid::from_parts` (src/xid.rs lines 123-140): big-endian u32 timestamp in
bytes 0-3, machine id bytes 4-6, low 16 bits of pid big-endian in bytes 7-8,
low 24 bits of the counter big-endian in bytes 9-11.  The `as u8` casts
truncate, hence the `% 256`. -/
def Xid.from_parts (ts : Nat) (mid : List Nat) (pid : Nat) (obj : Nat) : Xid :=
  { b0 := (ts >>> 24) % 256
    b1 := (ts >>> 16) % 256
    b2 := (ts >>> 8) % 256
    b3 := ts % 256
    b4 := mid.getD 0 0
    b5 := mid.getD 1 0
    b6 := mid.getD 2 0
    b7 := (pid >>> 8) % 256
    b8 := pid % 256
    b9 := (obj >>> 16) % 256
    b10 := (obj >>> 8) % 256
    b11 := obj % 256 }

/-- `Xid::timestamp` (src/xid.rs lines 201-205): big-endian u32 read of
bytes 0-3. -/
def Xid.timestamp (x : Xid) : Nat :=
  (x.b0 <<< 24) ||| (x.b1 <<< 16) ||| (x.b2 <<< 8) ||| x.b3

/-- `Xid::machine` (src/xid.rs lines 207-209): bytes 4-6. -/
def Xid.machine (x : Xid) : List Nat :=
  [x.b4, x.b5, x.b6]

/-- `Xid::process` (src/xid.rs lines 211-215): big-endian u16 read of
bytes 7-8. -/
def Xid.process (x : Xid) : Nat :=
  (x.b7 <<< 8) ||| x.b8

/-- `Xid::counter` (src/xid.rs lines 217-220): bytes 9-11 reassembled as
`(buf[0] << 16) | (buf[1] << 8) | buf[2]`. -/
def Xid.counter (x : Xid) : Nat :=
  (x.b9 <<< 16) ||| (x.b10 <<< 8) ||| x.b11

/-- The twenty 5-bit symbol values of `Xid::encode` (src/xid.rs lines
150-176), in output order: entry `i` is the argument of `enc!` in the
assignment to `dst[i]`.  `u8 <<` wraps, hence `% 256`. -/
def Xid.cells (x : Xid) : List Nat :=
  [ x.b0 >>> 3,
    ((x.b1 >>> 6) &&& 31) ||| (((x.b0 <<< 2) % 256) &&& 31),
    (x.b1 >>> 1) &&& 31,
    ((x.b2 >>> 4) &&& 31) ||| (((x.b1 <<< 4) % 256) &&& 31),
    (x.b3 >>> 7) ||| (((x.b2 <<< 1) % 256) &&& 31),
    (x.b3 >>> 2) &&& 31,
    (x.b4 >>> 5) ||| (((x.b3 <<< 3) % 256) &&& 31),
    x.b4 &&& 31,
    x.b5 >>> 3,
    ((x.b6 >>> 6) &&& 31) ||| (((x.b5 <<< 2) % 256) &&& 31),
    (x.b6 >>> 1) &&& 31,
    ((x.b7 >>> 4) &&& 31) ||| (((x.b6 <<< 4) % 256) &&& 31),
    (x.b8 >>> 7) ||| (((x.b7 <<< 1) % 256) &&& 31),
    (x.b8 >>> 2) &&& 31,
    (x.b9 >>> 5) ||| (((x.b8 <<< 3) % 256) &&& 31),
    x.b9 &&& 31,
    x.b10 >>> 3,
    ((x.b11 >>> 6) &&& 31) ||| (((x.b10 <<< 2) % 256) &&& 31),
    (x.b11 >>> 1) &&& 31,
    ((x.b11 <<< 4) % 256) &&& 31 ]

/-- `Xid::encode` (src/xid.rs lines 150-176): each output byte is the
alphabet entry `enc!` at the corresponding 5-bit symbol value. -/
def Xid.encode (x : Xid) : List Nat :=
  x.cells.map (fun v => ENCODING.getD v 0)

/-- `Xid::decode` (src/xid.rs lines 178-196): each input byte is looked up in
the inverse table (`dec!`) and the twelve output bytes are reassembled with
`u8` shifts (wrapping, hence `% 256`) and ors. -/
def Xid.decode (src : List Nat) : Xid :=
  let d := fun i => DECODING.getD (src.getD i 0) 0
  { b0 := ((d 0 <<< 3) % 256) ||| (d 1 >>> 2)
    b1 := ((d 1 <<< 6) % 256) ||| ((d 2 <<< 1) % 256) ||| (d 3 >>> 4)
    b2 := ((d 3 <<< 4) % 256) ||| (d 4 >>> 1)
    b3 := ((d 4 <<< 7) % 256) ||| ((d 5 <<< 2) % 256) ||| (d 6 >>> 3)
    b4 := ((d 6 <<< 5) % 256) ||| d 7
    b5 := ((d 8 <<< 3) % 256) ||| (d 9 >>> 2)
    b6 := ((d 9 <<< 6) % 256) ||| ((d 10 <<< 1) % 256) ||| (d 11 >>> 4)
    b7 := ((d 11 <<< 4) % 256) ||| (d 12 >>> 1)
    b8 := ((d 12 <<< 7) % 256) ||| ((d 13 <<< 2) % 256) ||| (d 14 >>> 3)
    b9 := ((d 14 <<< 5) % 256) ||| d 15
    b10 := ((d 16 <<< 3) % 256) ||| (d 17 >>> 2)
    b11 := ((d 17 <<< 6) % 256) ||| ((d 18 <<< 1) % 256) ||| (d 19 >>> 4) }

/-- `impl<T: AsRef<[u8]>> From<T> for Xid` (src/xid.rs lines 105-114): the
first 12 bytes of the input are copied; the slice `&data[..12]` is out of
bounds (a panic, embedded as `none`) when the input is shorter than 12. -/
def Xid.from_data (data : List Nat) : Option Xid :=
  if 12 ≤ data.length then
    some { b0 := data.getD 0 0, b1 := data.getD 1 0, b2 := data.getD 2 0
           b3 := data.getD 3 0, b4 := data.getD 4 0, b5 := data.getD 5 0
           b6 := data.getD 6 0, b7 := data.getD 7 0, b8 := data.getD 8 0
           b9 := data.getD 9 0, b10 := data.getD 10 0, b11 := data.getD 11 0 }
  else none

/-- Modelled from the spec's description of decode's error behavior, for
comparison with `Xid.decode`: the claim says exactly the inverse-table
value's low 5 bits are written into the output at that symbol's bit
positions, other symbols' bits being unaffected — i.e. the reassembly acts
on `dec! & 0x1F`. -/
def Xid.decodeClaim (src : List Nat) : Xid :=
  let d := fun i => DECODING.getD (src.getD i 0) 0 &&& 31
  { b0 := ((d 0 <<< 3) % 256) ||| (d 1 >>> 2)
    b1 := ((d 1 <<< 6) % 256) ||| ((d 2 <<< 1) % 256) ||| (d 3 >>> 4)
    b2 := ((d 3 <<< 4) % 256) ||| (d 4 >>> 1)
    b3 := ((d 4 <<< 7) % 256) ||| ((d 5 <<< 2) % 256) ||| (d 6 >>> 3)
    b4 := ((d 6 <<< 5) % 256) ||| d 7
    b5 := ((d 8 <<< 3) % 256) ||| (d 9 >>> 2)
    b6 := ((d 9 <<< 6) % 256) ||| ((d 10 <<< 1) % 256) ||| (d 11 >>> 4)
    b7 := ((d 11 <<< 4) % 256) ||| (d 12 >>> 1)
    b8 := ((d 12 <<< 7) % 256) ||| ((d 13 <<< 2) % 256) ||| (d 14 >>> 3)
    b9 := ((d 14 <<< 5) % 256) ||| d 15
    b10 := ((d 16 <<< 3) % 256) ||| (d 17 >>> 2)
    b11 := ((d 17 <<< 6) % 256) ||| ((d 18 <<< 1) % 256) ||| (d 19 >>> 4) }

/-- The value of a fixed-length digit string in base `B`, most significant
digit first: byte-lexicographic order on equal-length strings of in-range
digits coincides with numeric order on this value. -/
def baseVal (B : Nat) : List Nat → Nat
  | [] => 0
  | a :: l => a * B ^ l.length + baseVal B l

/-! ## Arithmetic helper lemmas -/

/-- A bitwise or of values occupying disjoint bit ranges is an addition. -/
theorem or_of_mod (k a b : Nat) (ha : a % 2 ^ k = 0) (hb : b < 2 ^ k) :
    a ||| b = a + b := by
  obtain ⟨c, rfl⟩ := Nat.dvd_of_mod_eq_zero ha
  exact (Nat.mul_add_lt_is_or hb c).symm

/-- Masking with `0x1F` is reduction modulo 32. -/
theorem and31 (x : Nat) : x &&& 31 = x % 32 := by
  have h : (31 : Nat) = 2 ^ 5 - 1 := by norm_num
  rw [h, Nat.and_pow_two_sub_one_eq_mod]

set_option maxRecDepth 8192 in
/-- The inverse table undoes the alphabet table on every 5-bit value. -/
theorem table_rt : ∀ v : Nat, v < 32 → DECODING.getD (ENCODING.getD v 0) 0 = v := by
  decide

set_option maxRecDepth 8192 in
/-- Alphabet entries at 5-bit values are members of the alphabet and ASCII. -/
theorem table_mem : ∀ v : Nat, v < 32 → ENCODING.getD v 0 ∈ ENCODING ∧ ENCODING.getD v 0 < 128 := by
  decide

set_option maxRecDepth 8192 in
set_option maxHeartbeats 2000000 in
/-- Any byte outside the alphabet maps to the sentinel 0xFF in the inverse
table. -/
theorem table_sentinel : ∀ c : Nat, c < 256 → c ∉ ENCODING → DECODING.getD c 0 = 255 := by
  decide

/-! ## C5, C7, C8, C10 -/

/-- C5: constructing an identifier from timestamp=1300816219,
machine=[0x60,0xf4,0x86], process=0xe428, counter=4271561 yields exactly the
bytes [0x4d,0x88,0xe1,0x5b,0x60,0xf4,0x86,0xe4,0x28,0x41,0x2d,0xc9], and the
four accessors applied to that identifier return the original field values. -/
theorem from_parts_test_vector :
    Xid.from_parts 1300816219 [0x60, 0xf4, 0x86] 0xe428 4271561 =
      ⟨0x4d, 0x88, 0xe1, 0x5b, 0x60, 0xf4, 0x86, 0xe4, 0x28, 0x41, 0x2d, 0xc9⟩ ∧
    (Xid.mk 0x4d 0x88 0xe1 0x5b 0x60 0xf4 0x86 0xe4 0x28 0x41 0x2d 0xc9).timestamp
      = 1300816219 ∧
    (Xid.mk 0x4d 0x88 0xe1 0x5b 0x60 0xf4 0x86 0xe4 0x28 0x41 0x2d 0xc9).machine
      = [0x60, 0xf4, 0x86] ∧
    (Xid.mk 0x4d 0x88 0xe1 0x5b 0x60 0xf4 0x86 0xe4 0x28 0x41 0x2d 0xc9).process
      = 0xe428 ∧
    (Xid.mk 0x4d 0x88 0xe1 0x5b 0x60 0xf4 0x86 0xe4 0x28 0x41 0x2d 0xc9).counter
      = 4271561 := by
  decide

/-- C7: `from_parts` stores the counter reduced modulo 2^24, and the
timestamp, machine and process bytes (bytes 0 through 8) do not depend on the
counter argument at all. -/
theorem from_parts_counter_wrap (ts pid obj obj' : Nat) (mid : List Nat) :
    (Xid.from_parts ts mid pid obj).counter = obj % 2 ^ 24 ∧
    (Xid.from_parts ts mid pid obj).b0 = (Xid.from_parts ts mid pid obj').b0 ∧
    (Xid.from_parts ts mid pid obj).b1 = (Xid.from_parts ts mid pid obj').b1 ∧
    (Xid.from_parts ts mid pid obj).b2 = (Xid.from_parts ts mid pid obj').b2 ∧
    (Xid.from_parts ts mid pid obj).b3 = (Xid.from_parts ts mid pid obj').b3 ∧
    (Xid.from_parts ts mid pid obj).b4 = (Xid.from_parts ts mid pid obj').b4 ∧
    (Xid.from_parts ts mid pid obj).b5 = (Xid.from_parts ts mid pid obj').b5 ∧
    (Xid.from_parts ts mid pid obj).b6 = (Xid.from_parts ts mid pid obj').b6 ∧
    (Xid.from_parts ts mid pid obj).b7 = (Xid.from_parts ts mid pid obj').b7 ∧
    (Xid.from_parts ts mid pid obj).b8 = (Xid.from_parts ts mid pid obj').b8 := by
  refine ⟨?_, by simp only [Xid.from_parts], by simp only [Xid.from_parts],
    by simp only [Xid.from_parts], by simp only [Xid.from_parts],
    by simp only [Xid.from_parts], by simp only [Xid.from_parts],
    by simp only [Xid.from_parts], by simp only [Xid.from_parts],
    by simp only [Xid.from_parts]⟩
  show (((obj >>> 16) % 256) <<< 16) ||| (((obj >>> 8) % 256) <<< 8) ||| (obj % 256)
      = obj % 2 ^ 24
  rw [Nat.shiftLeft_eq, Nat.shiftLeft_eq, Nat.shiftRight_eq_div_pow,
    Nat.shiftRight_eq_div_pow]
  rw [or_of_mod 16 (obj / 2 ^ 16 % 256 * 2 ^ 16) (obj / 2 ^ 8 % 256 * 2 ^ 8)
    (by omega) (by omega)]
  rw [or_of_mod 8 (obj / 2 ^ 16 % 256 * 2 ^ 16 + obj / 2 ^ 8 % 256 * 2 ^ 8)
    (obj % 256) (by omega) (by omega)]
  omega

/-- C8: all-zero fields produce the all-zero 12 bytes, and encoding the
all-zero identifier yields the alphabet's first symbol '0' (byte 48) repeated
20 times. -/
theorem zero_fields_encode :
    Xid.from_parts 0 [0, 0, 0] 0 0 = ⟨0, 0, 0, 0, 0, 0, 0, 0, 0, 0, 0, 0⟩ ∧
    Xid.encode ⟨0, 0, 0, 0, 0, 0, 0, 0, 0, 0, 0, 0⟩ = List.replicate 20 48 ∧
    ENCODING.getD 0 0 = 48 := by
  decide

/-- C10: the byte-slice conversion copies exactly the first 12 bytes (bytes
beyond index 11 are ignored), and on inputs shorter than 12 bytes the slice
is out of bounds, so the conversion only succeeds when the input has length
at least 12. -/
theorem from_data_spec (data rest : List Nat) :
    (12 ≤ data.length →
      Xid.from_data (data ++ rest) = Xid.from_data data ∧
      Xid.from_data data =
        some ⟨data.getD 0 0, data.getD 1 0, data.getD 2 0, data.getD 3 0,
              data.getD 4 0, data.getD 5 0, data.getD 6 0, data.getD 7 0,
              data.getD 8 0, data.getD 9 0, data.getD 10 0, data.getD 11 0⟩) ∧
    (data.length < 12 → Xid.from_data data = none) := by
  constructor
  · intro h
    constructor
    · unfold Xid.from_data
      rw [if_pos h, if_pos (by simp; omega)]
      simp only [Option.some.injEq]
      ext <;> exact List.getD_append _ _ _ _ (by omega)
    · unfold Xid.from_data
      rw [if_pos h]
  · intro h
    unfold Xid.from_data
    rw [if_neg (by omega)]

/-- Closed-form use of `from_data_spec` at a 13-byte input and a 2-byte
input. -/
theorem from_data_spec_witness :
    Xid.from_data ([0, 1, 2, 3, 4, 5, 6, 7, 8, 9, 10, 11, 12] ++ [99])
      = Xid.from_data [0, 1, 2, 3, 4, 5, 6, 7, 8, 9, 10, 11, 12] ∧
    Xid.from_data [0, 1] = none :=
  ⟨((from_data_spec [0, 1, 2, 3, 4, 5, 6, 7, 8, 9, 10, 11, 12] [99]).1
      (by decide)).1,
   (from_data_spec [0, 1] []).2 (by decide)⟩

/-! ## C1: the encode/decode round trip -/

/-- Normal form of the symbol pattern `bytes[k] >> 3`. -/
theorem cell_hi (a : Nat) : a >>> 3 = a / 8 := by
  rw [Nat.shiftRight_eq_div_pow]

theorem cell_p2 (a b : Nat) (hb : b < 256) :
    ((b >>> 6) &&& 31) ||| (((a <<< 2) % 256) &&& 31) = a % 8 * 4 + b / 64 := by
  simp only [and31, Nat.shiftLeft_eq, Nat.shiftRight_eq_div_pow]
  rw [(by omega : b / 2 ^ 6 % 32 = b / 64)]
  rw [(by omega : a * 2 ^ 2 % 256 % 32 = a % 8 * 4)]
  rw [Nat.or_comm, or_of_mod 2 (a % 8 * 4) (b / 64) (by omega) (by omega)]

theorem cell_p3 (b : Nat) : (b >>> 1) &&& 31 = b / 2 % 32 := by
  rw [and31, Nat.shiftRight_eq_div_pow]

theorem cell_p4 (b c : Nat) (hc : c < 256) :
    ((c >>> 4) &&& 31) ||| (((b <<< 4) % 256) &&& 31) = b % 2 * 16 + c / 16 := by
  simp only [and31, Nat.shiftLeft_eq, Nat.shiftRight_eq_div_pow]
  rw [(by omega : c / 2 ^ 4 % 32 = c / 16)]
  rw [(by omega : b * 2 ^ 4 % 256 % 32 = b % 2 * 16)]
  rw [Nat.or_comm, or_of_mod 4 (b % 2 * 16) (c / 16) (by omega) (by omega)]

theorem cell_p5 (c d : Nat) (hd : d < 256) :
    (d >>> 7) ||| (((c <<< 1) % 256) &&& 31) = c % 16 * 2 + d / 128 := by
  simp only [and31, Nat.shiftLeft_eq, Nat.shiftRight_eq_div_pow]
  rw [(by omega : d / 2 ^ 7 = d / 128)]
  rw [(by omega : c * 2 ^ 1 % 256 % 32 = c % 16 * 2)]
  rw [Nat.or_comm, or_of_mod 1 (c % 16 * 2) (d / 128) (by omega) (by omega)]

theorem cell_p6 (d : Nat) : (d >>> 2) &&& 31 = d / 4 % 32 := by
  rw [and31, Nat.shiftRight_eq_div_pow]

theorem cell_p7 (d e : Nat) (he : e < 256) :
    (e >>> 5) ||| (((d <<< 3) % 256) &&& 31) = d % 4 * 8 + e / 32 := by
  simp only [and31, Nat.shiftLeft_eq, Nat.shiftRight_eq_div_pow]
  rw [(by omega : e / 2 ^ 5 = e / 32)]
  rw [(by omega : d * 2 ^ 3 % 256 % 32 = d % 4 * 8)]
  rw [Nat.or_comm, or_of_mod 3 (d % 4 * 8) (e / 32) (by omega) (by omega)]

theorem cell_p9 (b : Nat) : ((b <<< 4) % 256) &&& 31 = b % 2 * 16 := by
  rw [and31, Nat.shiftLeft_eq]
  omega

theorem byteX_rt (a b : Nat) (ha : a < 256) (hb : b < 256) :
    (((a / 8) <<< 3) % 256) ||| ((a % 8 * 4 + b / 64) >>> 2) = a := by
  simp only [Nat.shiftLeft_eq, Nat.shiftRight_eq_div_pow]
  rw [(by omega : a / 8 * 2 ^ 3 % 256 = a / 8 * 8)]
  rw [(by omega : (a % 8 * 4 + b / 64) / 2 ^ 2 = a % 8)]
  rw [or_of_mod 3 (a / 8 * 8) (a % 8) (by omega) (by omega)]
  omega

theorem byteY_rt (a b c : Nat) (hb : b < 256) (hc : c < 256) :
    (((a % 8 * 4 + b / 64) <<< 6) % 256) ||| (((b / 2 % 32) <<< 1) % 256)
      ||| ((b % 2 * 16 + c / 16) >>> 4) = b := by
  simp only [Nat.shiftLeft_eq, Nat.shiftRight_eq_div_pow]
  rw [(by omega : (a % 8 * 4 + b / 64) * 2 ^ 6 % 256 = b / 64 * 64)]
  rw [(by omega : b / 2 % 32 * 2 ^ 1 % 256 = b / 2 % 32 * 2)]
  rw [(by omega : (b % 2 * 16 + c / 16) / 2 ^ 4 = b % 2)]
  rw [or_of_mod 6 (b / 64 * 64) (b / 2 % 32 * 2) (by omega) (by omega)]
  rw [or_of_mod 1 (b / 64 * 64 + b / 2 % 32 * 2) (b % 2) (by omega) (by omega)]
  omega

theorem byteZ_rt (b c d : Nat) (hc : c < 256) (hd : d < 256) :
    (((b % 2 * 16 + c / 16) <<< 4) % 256) ||| ((c % 16 * 2 + d / 128) >>> 1) = c := by
  simp only [Nat.shiftLeft_eq, Nat.shiftRight_eq_div_pow]
  rw [(by omega : (b % 2 * 16 + c / 16) * 2 ^ 4 % 256 = c / 16 * 16)]
  rw [(by omega : (c % 16 * 2 + d / 128) / 2 ^ 1 = c % 16)]
  rw [or_of_mod 4 (c / 16 * 16) (c % 16) (by omega) (by omega)]
  omega

theorem byteW_rt (c d e : Nat) (hd : d < 256) (he : e < 256) :
    (((c % 16 * 2 + d / 128) <<< 7) % 256) ||| (((d / 4 % 32) <<< 2) % 256)
      ||| ((d % 4 * 8 + e / 32) >>> 3) = d := by
  simp only [Nat.shiftLeft_eq, Nat.shiftRight_eq_div_pow]
  rw [(by omega : (c % 16 * 2 + d / 128) * 2 ^ 7 % 256 = d / 128 * 128)]
  rw [(by omega : d / 4 % 32 * 2 ^ 2 % 256 = d / 4 % 32 * 4)]
  rw [(by omega : (d % 4 * 8 + e / 32) / 2 ^ 3 = d % 4)]
  rw [or_of_mod 7 (d / 128 * 128) (d / 4 % 32 * 4) (by omega) (by omega)]
  rw [or_of_mod 2 (d / 128 * 128 + d / 4 % 32 * 4) (d % 4) (by omega) (by omega)]
  omega

theorem byteV_rt (d e : Nat) (he : e < 256) :
    (((d % 4 * 8 + e / 32) <<< 5) % 256) ||| (e % 32) = e := by
  simp only [Nat.shiftLeft_eq]
  rw [(by omega : (d % 4 * 8 + e / 32) * 2 ^ 5 % 256 = e / 32 * 32)]
  rw [or_of_mod 5 (e / 32 * 32) (e % 32) (by omega) (by omega)]
  omega

theorem byteL_rt (a b : Nat) (hb : b < 256) :
    (((a % 8 * 4 + b / 64) <<< 6) % 256) ||| (((b / 2 % 32) <<< 1) % 256)
      ||| ((b % 2 * 16) >>> 4) = b := by
  simp only [Nat.shiftLeft_eq, Nat.shiftRight_eq_div_pow]
  rw [(by omega : (a % 8 * 4 + b / 64) * 2 ^ 6 % 256 = b / 64 * 64)]
  rw [(by omega : b / 2 % 32 * 2 ^ 1 % 256 = b / 2 % 32 * 2)]
  rw [(by omega : b % 2 * 16 / 2 ^ 4 = b % 2)]
  rw [or_of_mod 6 (b / 64 * 64) (b / 2 % 32 * 2) (by omega) (by omega)]
  rw [or_of_mod 1 (b / 64 * 64 + b / 2 % 32 * 2) (b % 2) (by omega) (by omega)]
  omega

theorem encode_list (b0 b1 b2 b3 b4 b5 b6 b7 b8 b9 b10 b11 : Nat) :
    Xid.encode ⟨b0, b1, b2, b3, b4, b5, b6, b7, b8, b9, b10, b11⟩ =
    [ ENCODING.getD (b0 >>> 3) 0,
      ENCODING.getD (((b1 >>> 6) &&& 31) ||| (((b0 <<< 2) % 256) &&& 31)) 0,
      ENCODING.getD ((b1 >>> 1) &&& 31) 0,
      ENCODING.getD (((b2 >>> 4) &&& 31) ||| (((b1 <<< 4) % 256) &&& 31)) 0,
      ENCODING.getD ((b3 >>> 7) ||| (((b2 <<< 1) % 256) &&& 31)) 0,
      ENCODING.getD ((b3 >>> 2) &&& 31) 0,
      ENCODING.getD ((b4 >>> 5) ||| (((b3 <<< 3) % 256) &&& 31)) 0,
      ENCODING.getD (b4 &&& 31) 0,
      ENCODING.getD (b5 >>> 3) 0,
      ENCODING.getD (((b6 >>> 6) &&& 31) ||| (((b5 <<< 2) % 256) &&& 31)) 0,
      ENCODING.getD ((b6 >>> 1) &&& 31) 0,
      ENCODING.getD (((b7 >>> 4) &&& 31) ||| (((b6 <<< 4) % 256) &&& 31)) 0,
      ENCODING.getD ((b8 >>> 7) ||| (((b7 <<< 1) % 256) &&& 31)) 0,
      ENCODING.getD ((b8 >>> 2) &&& 31) 0,
      ENCODING.getD ((b9 >>> 5) ||| (((b8 <<< 3) % 256) &&& 31)) 0,
      ENCODING.getD (b9 &&& 31) 0,
      ENCODING.getD (b10 >>> 3) 0,
      ENCODING.getD (((b11 >>> 6) &&& 31) ||| (((b10 <<< 2) % 256) &&& 31)) 0,
      ENCODING.getD ((b11 >>> 1) &&& 31) 0,
      ENCODING.getD (((b11 <<< 4) % 256) &&& 31) 0 ] := rfl

theorem decode_list (s0 s1 s2 s3 s4 s5 s6 s7 s8 s9 s10 s11 s12 s13 s14 s15 s16 s17 s18 s19 : Nat) :
    Xid.decode [s0, s1, s2, s3, s4, s5, s6, s7, s8, s9, s10,
                s11, s12, s13, s14, s15, s16, s17, s18, s19] =
    { b0 := ((DECODING.getD s0 0 <<< 3) % 256) ||| (DECODING.getD s1 0 >>> 2)
      b1 := ((DECODING.getD s1 0 <<< 6) % 256) ||| ((DECODING.getD s2 0 <<< 1) % 256)
              ||| (DECODING.getD s3 0 >>> 4)
      b2 := ((DECODING.getD s3 0 <<< 4) % 256) ||| (DECODING.getD s4 0 >>> 1)
      b3 := ((DECODING.getD s4 0 <<< 7) % 256) ||| ((DECODING.getD s5 0 <<< 2) % 256)
              ||| (DECODING.getD s6 0 >>> 3)
      b4 := ((DECODING.getD s6 0 <<< 5) % 256) ||| DECODING.getD s7 0
      b5 := ((DECODING.getD s8 0 <<< 3) % 256) ||| (DECODING.getD s9 0 >>> 2)
      b6 := ((DECODING.getD s9 0 <<< 6) % 256) ||| ((DECODING.getD s10 0 <<< 1) % 256)
              ||| (DECODING.getD s11 0 >>> 4)
      b7 := ((DECODING.getD s11 0 <<< 4) % 256) ||| (DECODING.getD s12 0 >>> 1)
      b8 := ((DECODING.getD s12 0 <<< 7) % 256) ||| ((DECODING.getD s13 0 <<< 2) % 256)
              ||| (DECODING.getD s14 0 >>> 3)
      b9 := ((DECODING.getD s14 0 <<< 5) % 256) ||| DECODING.getD s15 0
      b10 := ((DECODING.getD s16 0 <<< 3) % 256) ||| (DECODING.getD s17 0 >>> 2)
      b11 := ((DECODING.getD s17 0 <<< 6) % 256) ||| ((DECODING.getD s18 0 <<< 1) % 256)
              ||| (DECODING.getD s19 0 >>> 4) } := rfl

/-- C1: decoding the encoding of any valid identifier yields it back. -/
theorem decode_encode (x : Xid) (hx : x.Valid) : Xid.decode (Xid.encode x) = x := by
  obtain ⟨b0, b1, b2, b3, b4, b5, b6, b7, b8, b9, b10, b11⟩ := x
  simp only [Xid.Valid] at hx
  obtain ⟨h0, h1, h2, h3, h4, h5, h6, h7, h8, h9, h10, h11⟩ := hx
  rw [encode_list, decode_list]
  simp only [cell_hi b0, cell_p2 b0 b1 h1, cell_p3 b1, cell_p4 b1 b2 h2,
    cell_p5 b2 b3 h3, cell_p6 b3, cell_p7 b3 b4 h4, and31 b4,
    cell_hi b5, cell_p2 b5 b6 h6, cell_p3 b6, cell_p4 b6 b7 h7,
    cell_p5 b7 b8 h8, cell_p6 b8, cell_p7 b8 b9 h9, and31 b9,
    cell_hi b10, cell_p2 b10 b11 h11, cell_p3 b11, cell_p9 b11]
  simp only [table_rt (b0 / 8) (by omega),
    table_rt (b0 % 8 * 4 + b1 / 64) (by omega),
    table_rt (b1 / 2 % 32) (by omega),
    table_rt (b1 % 2 * 16 + b2 / 16) (by omega),
    table_rt (b2 % 16 * 2 + b3 / 128) (by omega),
    table_rt (b3 / 4 % 32) (by omega),
    table_rt (b3 % 4 * 8 + b4 / 32) (by omega),
    table_rt (b4 % 32) (by omega),
    table_rt (b5 / 8) (by omega),
    table_rt (b5 % 8 * 4 + b6 / 64) (by omega),
    table_rt (b6 / 2 % 32) (by omega),
    table_rt (b6 % 2 * 16 + b7 / 16) (by omega),
    table_rt (b7 % 16 * 2 + b8 / 128) (by omega),
    table_rt (b8 / 4 % 32) (by omega),
    table_rt (b8 % 4 * 8 + b9 / 32) (by omega),
    table_rt (b9 % 32) (by omega),
    table_rt (b10 / 8) (by omega),
    table_rt (b10 % 8 * 4 + b11 / 64) (by omega),
    table_rt (b11 / 2 % 32) (by omega),
    table_rt (b11 % 2 * 16) (by omega)]
  simp only [Xid.mk.injEq]
  exact ⟨byteX_rt b0 b1 h0 h1, byteY_rt b0 b1 b2 h1 h2, byteZ_rt b1 b2 b3 h2 h3,
    byteW_rt b2 b3 b4 h3 h4, byteV_rt b3 b4 h4, byteX_rt b5 b6 h5 h6,
    byteY_rt b5 b6 b7 h6 h7, byteZ_rt b6 b7 b8 h7 h8, byteW_rt b7 b8 b9 h8 h9,
    byteV_rt b8 b9 h9, byteX_rt b10 b11 h10 h11, byteL_rt b10 b11 h11⟩

/-- Closed-form use of `decode_encode` at the test-vector identifier. -/
theorem decode_encode_witness :
    (Xid.mk 0x4d 0x88 0xe1 0x5b 0x60 0xf4 0x86 0xe4 0x28 0x41 0x2d 0xc9).Valid ∧
    Xid.decode
        (Xid.encode (Xid.mk 0x4d 0x88 0xe1 0x5b 0x60 0xf4 0x86 0xe4 0x28 0x41 0x2d 0xc9))
      = Xid.mk 0x4d 0x88 0xe1 0x5b 0x60 0xf4 0x86 0xe4 0x28 0x41 0x2d 0xc9 :=
  ⟨by decide, decode_encode _ (by decide)⟩

/-! ## C3: where the four padding bits live -/

/-- C3 counterexample: on the all-0xFF identifier the first output symbol's
5-bit value is 31, not strictly below 2 — the top bits of the first symbol
are not padding. -/
theorem first_symbol_not_padding :
    (Xid.cells (Xid.mk 255 255 255 255 255 255 255 255 255 255 255 255)).getD 0 0 = 31 ∧
    ¬ (Xid.cells (Xid.mk 255 255 255 255 255 255 255 255 255 255 255 255)).getD 0 0 < 2 := by
  decide

/-- C3 (amended): the 4 unused padding bits are the LOW 4 bits of the LAST
(20th) symbol, which are always zero — the last symbol's value is
`(bytes[11] & 1) << 4`, a multiple of 16 — while the first symbol carries
the full top 5 bits of byte 0. -/
theorem last_symbol_padding (x : Xid) :
    x.cells.getD 19 0 % 16 = 0 ∧ x.cells.getD 19 0 = x.b11 % 2 * 16 ∧
    x.cells.getD 0 0 = x.b0 / 8 := by
  obtain ⟨b0, b1, b2, b3, b4, b5, b6, b7, b8, b9, b10, b11⟩ := x
  have h19 : (Xid.cells ⟨b0, b1, b2, b3, b4, b5, b6, b7, b8, b9, b10, b11⟩).getD 19 0
      = ((b11 <<< 4) % 256) &&& 31 := rfl
  have h0 : (Xid.cells ⟨b0, b1, b2, b3, b4, b5, b6, b7, b8, b9, b10, b11⟩).getD 0 0
      = b0 >>> 3 := rfl
  rw [h19, h0, cell_p9, cell_hi]
  exact ⟨by omega, rfl, rfl⟩

/-! ## C4: decoding out-of-alphabet bytes -/

set_option maxRecDepth 8192 in
/-- C4 counterexample: decoding the string of twenty '0' bytes with position
1 replaced by '!' (0x21, outside the alphabet) does not confine the damage
to that symbol's bit positions: the real decode writes 63 into byte 0, while
the claim's prediction (only the sentinel's low 5 bits at the symbol's
positions) would give 7. -/
theorem decode_invalid_counterexample :
    (33 : Nat) ∉ ENCODING ∧
    Xid.decode (48 :: 33 :: List.replicate 18 48)
      ≠ Xid.decodeClaim (48 :: 33 :: List.replicate 18 48) ∧
    (Xid.decode (48 :: 33 :: List.replicate 18 48)).b0 = 63 ∧
    (Xid.decodeClaim (48 :: 33 :: List.replicate 18 48)).b0 = 7 := by
  decide

set_option maxRecDepth 8192 in
/-- C4 (amended): decode never rejects (it is a total function); a byte
outside the alphabet is mapped to the sentinel 0xFF by the inverse table;
but the wrapping shifts act on all eight bits of the sentinel, so bits
outside the invalid symbol's own positions are corrupted as well: with any
invalid byte at position 1 of an otherwise all-'0' string, byte 0 of the
output becomes 63 (the claim's confined prediction is 7). -/
theorem decode_invalid_byte (c : Nat) (hc : c < 256) (hm : c ∉ ENCODING) :
    DECODING.getD c 0 = 255 ∧
    (Xid.decode (48 :: c :: List.replicate 18 48)).b0 = 63 ∧
    (Xid.decodeClaim (48 :: c :: List.replicate 18 48)).b0 = 7 := by
  have hs := table_sentinel c hc hm
  refine ⟨hs, ?_, ?_⟩
  · have h : (Xid.decode (48 :: c :: List.replicate 18 48)).b0
        = ((DECODING.getD 48 0 <<< 3) % 256) ||| (DECODING.getD c 0 >>> 2) := rfl
    rw [h, hs]
    decide
  · have h : (Xid.decodeClaim (48 :: c :: List.replicate 18 48)).b0
        = (((DECODING.getD 48 0 &&& 31) <<< 3) % 256)
            ||| ((DECODING.getD c 0 &&& 31) >>> 2) := rfl
    rw [h, hs]
    decide

/-- Closed-form use of `decode_invalid_byte` at the invalid byte '!'. -/
theorem decode_invalid_byte_witness :
    DECODING.getD 33 0 = 255 ∧
    (Xid.decode (48 :: 33 :: List.replicate 18 48)).b0 = 63 ∧
    (Xid.decodeClaim (48 :: 33 :: List.replicate 18 48)).b0 = 7 :=
  decode_invalid_byte 33 (by decide) (by decide)

/-! ## C9: encode output is always in the alphabet -/

/-- Every 5-bit symbol value of a valid identifier is below 32, so each
indexes the bounded 32-entry table. -/
theorem cells_lt (x : Xid) (hx : x.Valid) : ∀ v ∈ x.cells, v < 32 := by
  obtain ⟨b0, b1, b2, b3, b4, b5, b6, b7, b8, b9, b10, b11⟩ := x
  simp only [Xid.Valid] at hx
  obtain ⟨h0, h1, h2, h3, h4, h5, h6, h7, h8, h9, h10, h11⟩ := hx
  intro v hv
  simp only [Xid.cells, cell_hi b0, cell_p2 b0 b1 h1, cell_p3 b1, cell_p4 b1 b2 h2,
    cell_p5 b2 b3 h3, cell_p6 b3, cell_p7 b3 b4 h4, and31 b4,
    cell_hi b5, cell_p2 b5 b6 h6, cell_p3 b6, cell_p4 b6 b7 h7,
    cell_p5 b7 b8 h8, cell_p6 b8, cell_p7 b8 b9 h9, and31 b9,
    cell_hi b10, cell_p2 b10 b11 h11, cell_p3 b11, cell_p9 b11,
    List.mem_cons, List.not_mem_nil, or_false] at hv
  rcases hv with rfl | rfl | rfl | rfl | rfl | rfl | rfl | rfl | rfl | rfl | rfl
    | rfl | rfl | rfl | rfl | rfl | rfl | rfl | rfl | rfl <;> omega

/-- C9: every byte written by encode is one of the 32 alphabet bytes (each
5-bit group indexes the bounded table), and is ASCII, so the unchecked
byte-to-string conversion is valid UTF-8. -/
theorem encode_ascii (x : Xid) (hx : x.Valid) :
    ∀ c ∈ x.encode, c ∈ ENCODING ∧ c < 128 := by
  intro c hc
  simp only [Xid.encode, List.mem_map] at hc
  obtain ⟨v, hv, rfl⟩ := hc
  exact table_mem _ (cells_lt x hx v hv)

/-- Closed-form use of `encode_ascii` at the all-zero identifier. -/
theorem encode_ascii_witness :
    (Xid.mk 0 0 0 0 0 0 0 0 0 0 0 0).Valid ∧ ((48 : Nat) ∈ ENCODING ∧ (48 : Nat) < 128) :=
  ⟨by decide, encode_ascii ⟨0, 0, 0, 0, 0, 0, 0, 0, 0, 0, 0, 0⟩ (by decide) 48 (by decide)⟩

/-! ## C6: distinctness of generated identifiers -/

/-- Identifiers built in one process (same machine id and pid) from distinct
(timestamp, 24-bit counter) pairs are distinct: the timestamp bytes and the
counter bytes determine the pair. -/
theorem from_parts_inj (M : List Nat) (P t1 c1 t2 c2 : Nat)
    (ht1 : t1 < 2 ^ 32) (ht2 : t2 < 2 ^ 32) (hc1 : c1 < 2 ^ 24) (hc2 : c2 < 2 ^ 24)
    (hne : (t1, c1) ≠ (t2, c2)) :
    Xid.from_parts t1 M P c1 ≠ Xid.from_parts t2 M P c2 := by
  intro he
  apply hne
  have e0 := congrArg Xid.b0 he
  have e1 := congrArg Xid.b1 he
  have e2 := congrArg Xid.b2 he
  have e3 := congrArg Xid.b3 he
  have e9 := congrArg Xid.b9 he
  have e10 := congrArg Xid.b10 he
  have e11 := congrArg Xid.b11 he
  simp only [Xid.from_parts, Nat.shiftRight_eq_div_pow] at e0 e1 e2 e3 e9 e10 e11
  rw [Prod.mk.injEq]
  constructor <;> omega

/-- C6: generating any number of identifiers in one process, no two sharing
the same (timestamp, counter) pair, yields pairwise-distinct identifiers. -/
theorem generate_distinct (M : List Nat) (P : Nat) (gens : List (Nat × Nat))
    (hrange : ∀ g ∈ gens, g.1 < 2 ^ 32 ∧ g.2 < 2 ^ 24)
    (hdist : gens.Pairwise (· ≠ ·)) :
    (gens.map (fun g => Xid.from_parts g.1 M P g.2)).Pairwise (· ≠ ·) := by
  rw [List.pairwise_map]
  refine hdist.imp_of_mem ?_
  intro a b hma hmb hne
  obtain ⟨ha1, ha2⟩ := hrange a hma
  obtain ⟨hb1, hb2⟩ := hrange b hmb
  exact from_parts_inj M P a.1 a.2 b.1 b.2 ha1 hb1 ha2 hb2 hne

/-- Closed-form use of `generate_distinct`: two generations in the same
second with consecutive counter values give distinct identifiers. -/
theorem generate_distinct_witness :
    ([((10 : Nat), (1 : Nat)), (10, 2)].map
      (fun g => Xid.from_parts g.1 [1, 2, 3] 5 g.2)).Pairwise (· ≠ ·) :=
  generate_distinct [1, 2, 3] 5 [(10, 1), (10, 2)] (by decide) (by decide)

/-! ## C2: the encoding is strictly order-preserving -/

theorem lex_cons_iff {a b : Nat} {l1 l2 : List Nat} :
    List.Lex (· < ·) (a :: l1) (b :: l2) ↔ a < b ∨ (a = b ∧ List.Lex (· < ·) l1 l2) := by
  constructor
  · intro h
    cases h with
    | rel h => exact Or.inl h
    | cons h => exact Or.inr ⟨rfl, h⟩
  · intro h
    rcases h with h | ⟨rfl, h⟩
    · exact List.Lex.rel h
    · exact List.Lex.cons h

theorem baseVal_lt (B : Nat) : ∀ l : List Nat, (∀ a ∈ l, a < B) → baseVal B l < B ^ l.length := by
  intro l
  induction l with
  | nil => intro _; simp [baseVal]
  | cons a t ih =>
    intro h
    have ha : a < B := h a (List.mem_cons_self a t)
    have ht := ih (fun x hx => h x (List.mem_cons_of_mem a hx))
    show a * B ^ t.length + baseVal B t < B ^ t.length * B
    calc a * B ^ t.length + baseVal B t
        < a * B ^ t.length + B ^ t.length := Nat.add_lt_add_left ht _
      _ = (a + 1) * B ^ t.length := by ring
      _ ≤ B * B ^ t.length := Nat.mul_le_mul (by omega) (Nat.le_refl _)
      _ = B ^ t.length * B := by ring

theorem lex_iff_baseVal (B : Nat) :
    ∀ l1 l2 : List Nat, l1.length = l2.length →
    (∀ a ∈ l1, a < B) → (∀ a ∈ l2, a < B) →
    (List.Lex (· < ·) l1 l2 ↔ baseVal B l1 < baseVal B l2) := by
  intro l1
  induction l1 with
  | nil =>
    intro l2 hlen _ _
    cases l2 with
    | nil =>
      constructor
      · intro h; cases h
      · intro h; simp [baseVal] at h
    | cons b t => simp at hlen
  | cons a t1 ih =>
    intro l2 hlen h1 h2
    cases l2 with
    | nil => simp at hlen
    | cons b t2 =>
      have hlen' : t1.length = t2.length := by simpa using hlen
      have ha : a < B := h1 a (List.mem_cons_self a t1)
      have hb : b < B := h2 b (List.mem_cons_self b t2)
      have ht1 : ∀ x ∈ t1, x < B := fun x hx => h1 x (List.mem_cons_of_mem a hx)
      have ht2 : ∀ x ∈ t2, x < B := fun x hx => h2 x (List.mem_cons_of_mem b hx)
      rw [lex_cons_iff, ih t2 hlen' ht1 ht2]
      show a < b ∨ (a = b ∧ baseVal B t1 < baseVal B t2) ↔
        a * B ^ t1.length + baseVal B t1 < b * B ^ t2.length + baseVal B t2
      have v1 := baseVal_lt B t1 ht1
      have v2 := baseVal_lt B t2 ht2
      rw [hlen'] at v1 ⊢
      constructor
      · rintro (h | ⟨rfl, h⟩)
        · calc a * B ^ t2.length + baseVal B t1
              < a * B ^ t2.length + B ^ t2.length := Nat.add_lt_add_left v1 _
            _ = (a + 1) * B ^ t2.length := by ring
            _ ≤ b * B ^ t2.length := Nat.mul_le_mul (by omega) (Nat.le_refl _)
            _ ≤ b * B ^ t2.length + baseVal B t2 := Nat.le_add_right _ _
        · exact Nat.add_lt_add_left h _
      · intro h
        rcases Nat.lt_trichotomy a b with hab | hab | hab
        · exact Or.inl hab
        · subst hab
          exact Or.inr ⟨rfl, Nat.lt_of_add_lt_add_left h⟩
        · exfalso
          have hgt : b * B ^ t2.length + baseVal B t2 < a * B ^ t2.length + baseVal B t1 :=
            calc b * B ^ t2.length + baseVal B t2
                < b * B ^ t2.length + B ^ t2.length := Nat.add_lt_add_left v2 _
              _ = (b + 1) * B ^ t2.length := by ring
              _ ≤ a * B ^ t2.length := Nat.mul_le_mul (by omega) (Nat.le_refl _)
              _ ≤ a * B ^ t2.length + baseVal B t1 := Nat.le_add_right _ _
          exact Nat.lt_asymm h hgt

/-- The alphabet table is strictly monotone on 5-bit values. -/
theorem alpha_mono : ∀ u : Nat, u < 32 → ∀ v : Nat, v < 32 →
    (ENCODING.getD u 0 < ENCODING.getD v 0 ↔ u < v) := by
  decide

theorem lex_map_alpha : ∀ l1 l2 : List Nat, (∀ a ∈ l1, a < 32) → (∀ a ∈ l2, a < 32) →
    (List.Lex (· < ·) (l1.map fun v => ENCODING.getD v 0) (l2.map fun v => ENCODING.getD v 0) ↔
      List.Lex (· < ·) l1 l2) := by
  intro l1
  induction l1 with
  | nil =>
    intro l2 _ _
    cases l2 with
    | nil => simp only [List.map_nil]
    | cons b t =>
      simp only [List.map_nil, List.map_cons]
      constructor
      · intro _; exact List.Lex.nil
      · intro _; exact List.Lex.nil
  | cons a t1 ih =>
    intro l2 h1 h2
    cases l2 with
    | nil =>
      simp only [List.map_cons, List.map_nil]
      constructor
      · intro h; cases h
      · intro h; cases h
    | cons b t2 =>
      simp only [List.map_cons]
      have ha : a < 32 := h1 a (List.mem_cons_self a t1)
      have hb : b < 32 := h2 b (List.mem_cons_self b t2)
      have ht1 : ∀ x ∈ t1, x < 32 := fun x hx => h1 x (List.mem_cons_of_mem a hx)
      have ht2 : ∀ x ∈ t2, x < 32 := fun x hx => h2 x (List.mem_cons_of_mem b hx)
      rw [lex_cons_iff, lex_cons_iff, ih t2 ht1 ht2]
      have hinj : ENCODING.getD a 0 = ENCODING.getD b 0 ↔ a = b := by
        constructor
        · intro he
          rcases Nat.lt_trichotomy a b with h | h | h
          · have := (alpha_mono a ha b hb).2 h; omega
          · exact h
          · have := (alpha_mono b hb a ha).2 h; omega
        · intro he; rw [he]
      rw [alpha_mono a ha b hb, hinj]

theorem bytes_lt (x : Xid) (hx : x.Valid) : ∀ v ∈ x.bytesList, v < 256 := by
  obtain ⟨b0, b1, b2, b3, b4, b5, b6, b7, b8, b9, b10, b11⟩ := x
  simp only [Xid.Valid] at hx
  obtain ⟨h0, h1, h2, h3, h4, h5, h6, h7, h8, h9, h10, h11⟩ := hx
  intro v hv
  simp only [Xid.bytesList, List.mem_cons, List.not_mem_nil, or_false] at hv
  rcases hv with rfl | rfl | rfl | rfl | rfl | rfl | rfl | rfl | rfl | rfl | rfl | rfl <;>
    omega

/-- The 20 symbol values read as a base-32 number equal 16 times the 12 bytes
read as a base-256 number: the packing shifts the 96 bits left by the 4
trailing padding bits. -/
theorem cells_val (x : Xid) (hx : x.Valid) :
    baseVal 32 x.cells = 16 * baseVal 256 x.bytesList := by
  obtain ⟨b0, b1, b2, b3, b4, b5, b6, b7, b8, b9, b10, b11⟩ := x
  simp only [Xid.Valid] at hx
  obtain ⟨h0, h1, h2, h3, h4, h5, h6, h7, h8, h9, h10, h11⟩ := hx
  simp only [Xid.cells, Xid.bytesList, cell_hi b0, cell_p2 b0 b1 h1, cell_p3 b1,
    cell_p4 b1 b2 h2, cell_p5 b2 b3 h3, cell_p6 b3, cell_p7 b3 b4 h4, and31 b4,
    cell_hi b5, cell_p2 b5 b6 h6, cell_p3 b6, cell_p4 b6 b7 h7,
    cell_p5 b7 b8 h8, cell_p6 b8, cell_p7 b8 b9 h9, and31 b9,
    cell_hi b10, cell_p2 b10 b11 h11, cell_p3 b11, cell_p9 b11,
    baseVal, List.length_cons, List.length_nil]
  norm_num
  omega

/-- C2: byte-lexicographic order on identifiers coincides with
byte-lexicographic order on their encoded 20-byte strings. -/
theorem encode_order (a b : Xid) (ha : a.Valid) (hb : b.Valid) :
    List.Lex (· < ·) a.bytesList b.bytesList ↔
      List.Lex (· < ·) a.encode b.encode := by
  have hea : a.encode = a.cells.map (fun v => ENCODING.getD v 0) := rfl
  have heb : b.encode = b.cells.map (fun v => ENCODING.getD v 0) := rfl
  rw [hea, heb, lex_map_alpha a.cells b.cells (cells_lt a ha) (cells_lt b hb),
    lex_iff_baseVal 32 a.cells b.cells rfl (cells_lt a ha) (cells_lt b hb),
    lex_iff_baseVal 256 a.bytesList b.bytesList rfl (bytes_lt a ha) (bytes_lt b hb),
    cells_val a ha, cells_val b hb]
  omega

/-- Closed-form use of `encode_order` at the all-zero and test-vector
identifiers. -/
theorem encode_order_witness :
    (Xid.mk 0 0 0 0 0 0 0 0 0 0 0 0).Valid ∧
    (Xid.mk 0x4d 0x88 0xe1 0x5b 0x60 0xf4 0x86 0xe4 0x28 0x41 0x2d 0xc9).Valid ∧
    (List.Lex (· < ·) (Xid.mk 0 0 0 0 0 0 0 0 0 0 0 0).bytesList
        (Xid.mk 0x4d 0x88 0xe1 0x5b 0x60 0xf4 0x86 0xe4 0x28 0x41 0x2d 0xc9).bytesList ↔
      List.Lex (· < ·) (Xid.mk 0 0 0 0 0 0 0 0 0 0 0 0).encode
        (Xid.mk 0x4d 0x88 0xe1 0x5b 0x60 0xf4 0x86 0xe4 0x28 0x41 0x2d 0xc9).encode) :=
  ⟨by decide, by decide, encode_order _ _ (by decide) (by decide)⟩
